import Mathlib

/-!
Verification of the structured-operation model (Linalg-style ops:
copy, fill, convolution, pooling, generic) against its specification.

The definitions below are a shallow embedding of the operation-definition
source (`LinalgStructuredOps.td` extra-class bodies). Helper routines whose
implementation lives outside the sampled source (the affine-map algebra,
`weightedPoolingInputIndex`, `makeAffineDimExprs`, `extractOrIdentityMap`,
the structural verifier) are modelled from the specification and are marked
as such in their doc comments.
-/

namespace Linalg

/-- Iterator kinds classifying each iteration-space dimension. -/
inductive IteratorKind where
  | parallel
  | reduction
  | window
deriving DecidableEq, Repr

/-- Affine expression trees over dimension references, integer constants,
addition, and multiplication by a constant (the affine restriction). -/
inductive AffineExpr where
  | dim (i : Nat)
  | const (c : Int)
  | add (a b : AffineExpr)
  | mulc (a : AffineExpr) (c : Int)
deriving DecidableEq, Repr

/-- Evaluate an affine expression under an assignment of dimension values. -/
def AffineExpr.eval (v : Nat → Int) : AffineExpr → Int
  | .dim i => v i
  | .const c => c
  | .add a b => a.eval v + b.eval v
  | .mulc a c => a.eval v * c

/-- An affine index map: a domain rank together with one result expression
per target coordinate. Maps are immutable value types. -/
structure AffineMap where
  numDims : Nat
  results : List AffineExpr
deriving DecidableEq, Repr

/-- Substitute dimension references in an affine expression. -/
def AffineExpr.substDims (f : Nat → AffineExpr) : AffineExpr → AffineExpr
  | .dim i => f i
  | .const c => .const c
  | .add a b => .add (a.substDims f) (b.substDims f)
  | .mulc a c => .mulc (a.substDims f) c

/-- Errors of the affine-map algebra. -/
inductive MapError where
  | RankMismatch
  | InvalidPermutation
deriving DecidableEq, Repr

/-- The rank-`n` identity map, `(d0, ..., dn-1) -> (d0, ..., dn-1)`. -/
def identityMap (rank : Nat) : AffineMap :=
  ⟨rank, (List.range rank).map AffineExpr.dim⟩

/-- Modelled from the spec: `compose(outer, inner)` substitutes the inner
map's results for the outer map's dimension references and fails with
`RankMismatch` when `outer.domain_rank != inner.result_count`. -/
def compose (outer inner : AffineMap) : Except MapError AffineMap :=
  if outer.numDims = inner.results.length then
    .ok ⟨inner.numDims,
         outer.results.map
           (AffineExpr.substDims fun i => inner.results.getD i (.const 0))⟩
  else
    .error .RankMismatch

/-- A map is a permutation map over `[0, rank)` when it has one result per
domain dimension and each dimension reference occurs exactly once. -/
def isPermutationMap (m : AffineMap) : Bool :=
  m.results.length == m.numDims &&
    (List.range m.numDims).all fun j => m.results.count (AffineExpr.dim j) == 1

/-- The optional stride/dilation/padding attributes shared by all
window-based operations (`PoolingBase_Op` in the source). -/
structure PoolingAttrs where
  strides : Option (List Int)
  dilations : Option (List Int)
  padding : Option (List (Int × Int))
deriving DecidableEq, Repr

/-- From the source: stride of window dimension `i`; defaults to 1 when the
`strides` attribute is absent. The source asserts `i` is in bounds; out of
bounds the embedding is total with an arbitrary default. -/
def PoolingAttrs.getStride (a : PoolingAttrs) (i : Nat) : Int :=
  match a.strides with
  | none => 1
  | some s => s.getD i 1

/-- From the source: dilation of window dimension `i`; defaults to 1 when
the `dilations` attribute is absent. -/
def PoolingAttrs.getDilation (a : PoolingAttrs) (i : Nat) : Int :=
  match a.dilations with
  | none => 1
  | some d => d.getD i 1

/-- From the source: low padding of window dimension `i`; defaults to 0
when the `padding` attribute is absent. -/
def PoolingAttrs.getLowPad (a : PoolingAttrs) (i : Nat) : Int :=
  match a.padding with
  | none => 0
  | some p => (p.getD i (0, 0)).1

/-- From the source: high padding of window dimension `i`; defaults to 0
when the `padding` attribute is absent. -/
def PoolingAttrs.getHighPad (a : PoolingAttrs) (i : Nat) : Int :=
  match a.padding with
  | none => 0
  | some p => (p.getD i (0, 0)).2

/-- Modelled from the spec: the iteration-space layout allocates dimension
references consecutively, so a request for `n` fresh dimensions starting at
`idx` yields `(d idx, ..., d (idx+n-1))` and advances `idx` by `n`
(`makeAffineDimExprs` in the repository, outside the sampled source). -/
def makeAffineDimExprs (n idx : Nat) : List AffineExpr × Nat :=
  ((List.range n).map fun k => AffineExpr.dim (idx + k), idx + n)

/-- Modelled from the spec: `weighted_window_index` produces one expression
per spatial dimension, `output_coord[i] * stride[i] + window_coord[i] *
dilation[i] - low_pad[i]` (`weightedPoolingInputIndex` in the repository,
outside the sampled source). -/
def weightedPoolingInputIndex (a : PoolingAttrs)
    (outputDims windowDims : List AffineExpr) : List AffineExpr :=
  (List.range outputDims.length).map fun i =>
    AffineExpr.add
      (.add (.mulc (outputDims.getD i (.const 0)) (a.getStride i))
            (.mulc (windowDims.getD i (.const 0)) (a.getDilation i)))
      (.const (-(a.getLowPad i)))

/-- A convolution operation: three strided-memref operands
(filter, input, output) recorded by rank, plus the window attributes. -/
structure ConvOp where
  filterRank : Nat
  inputRank : Nat
  outputRank : Nat
  attrs : PoolingAttrs
deriving DecidableEq, Repr

/-- From the source: the batch-dimension count is fixed to 1. -/
def ConvOp.getNumBatchDimensions (_ : ConvOp) : Nat := 1

/-- From the source: the input-feature-dimension count is fixed to 1. -/
def ConvOp.getNumInputFeatureDimensions (_ : ConvOp) : Nat := 1

/-- From the source: the output-feature-dimension count is fixed to 1. -/
def ConvOp.getNumOutputFeatureDimensions (_ : ConvOp) : Nat := 1

/-- From the source: spatial dimensions are the output rank minus the batch
and output-feature dimensions. -/
def ConvOp.getNumSpatialDimensions (op : ConvOp) : Nat :=
  op.outputRank - op.getNumBatchDimensions - op.getNumOutputFeatureDimensions

/-- From the source (`ConvOp::iterator_types`): `nPar` parallel iterators
(the output rank), then `nRed` reductions (input-feature count), then
`nWin` window iterators. The source asserts
`nPar > #batch + #inputFeature`; the embedding returns `none` exactly when
that assertion fails. -/
def ConvOp.iterator_types (op : ConvOp) : Option (List IteratorKind) :=
  let nPar := op.outputRank
  let nRed := op.getNumInputFeatureDimensions
  if op.getNumBatchDimensions + op.getNumInputFeatureDimensions < nPar then
    let nWin :=
      nPar - op.getNumBatchDimensions - op.getNumInputFeatureDimensions
    some (List.replicate nPar .parallel ++ List.replicate nRed .reduction ++
          List.replicate nWin .window)
  else
    none

/-- Modelled from the spec: the window-loop count is the number of
dimensions classified `window` (`getNumWindowLoops` of the structured-op
interface, outside the sampled source). `none` propagates the
`iterator_types` assertion failure. -/
def ConvOp.getNumWindowLoops (op : ConvOp) : Option Nat :=
  op.iterator_types.map fun its => its.count .window

/-- From the source (`ConvOp::indexing_maps`): dimensions are allocated in
the order `[b, xs, k, q, zs]`; the three maps index filter
`(zs, q, k)`, input `(b, weighted xs zs, q)`, output `(b, xs, k)`.
The source asserts `nWin > 0`; the embedding returns `none` exactly when an
assertion fails. -/
def ConvOp.indexing_maps (op : ConvOp) : Option (List AffineMap) := do
  let nWin ← op.getNumWindowLoops
  if 0 < nWin then
    let idx0 := 0
    let (bs, idx1) := makeAffineDimExprs op.getNumBatchDimensions idx0
    let (xs, idx2) := makeAffineDimExprs nWin idx1
    let (ks, idx3) := makeAffineDimExprs op.getNumOutputFeatureDimensions idx2
    let (qs, idx4) := makeAffineDimExprs op.getNumInputFeatureDimensions idx3
    let (zs, idx) := makeAffineDimExprs nWin idx4
    let ws := weightedPoolingInputIndex op.attrs xs zs
    some [⟨idx, zs ++ qs ++ ks⟩, ⟨idx, bs ++ ws ++ qs⟩, ⟨idx, bs ++ xs ++ ks⟩]
  else
    none

/-- A single-input pooling operation (`pooling_max` / `pooling_min` /
`pooling_sum`): operands (input, windowDims, output) recorded by rank,
plus the window attributes. -/
structure PoolingOp where
  inputRank : Nat
  windowDimsRank : Nat
  outputRank : Nat
  attrs : PoolingAttrs
deriving DecidableEq, Repr

/-- From the source (`SingleInputPoolingBase_Op::iterator_types`): `nPar`
parallel iterators (the output rank) followed by `nWin = nPar` window
iterators. -/
def PoolingOp.iterator_types (op : PoolingOp) : List IteratorKind :=
  let nPar := op.outputRank
  let nWin := nPar
  List.replicate nPar .parallel ++ List.replicate nWin .window

/-- Modelled from the spec: the parallel-loop count is the number of
dimensions classified `parallel` (structured-op interface, outside the
sampled source). -/
def PoolingOp.getNumParallelLoops (op : PoolingOp) : Nat :=
  op.iterator_types.count .parallel

/-- Modelled from the spec: the window-loop count is the number of
dimensions classified `window` (structured-op interface, outside the
sampled source). -/
def PoolingOp.getNumWindowLoops (op : PoolingOp) : Nat :=
  op.iterator_types.count .window

/-- From the source (`SingleInputPoolingBase_Op::indexing_maps`): output
dimensions first, then window dimensions; the three maps index input (the
weighted window expressions), windowDims, and output. The source asserts
`nWin > 0`; the embedding returns `none` exactly when that fails. -/
def PoolingOp.indexing_maps (op : PoolingOp) : Option (List AffineMap) :=
  let nPar := op.getNumParallelLoops
  let nWin := op.getNumWindowLoops
  if 0 < nWin then
    let (outputDims, idx1) := makeAffineDimExprs nPar 0
    let (windowDims, idx) := makeAffineDimExprs nWin idx1
    let inputDims := weightedPoolingInputIndex op.attrs outputDims windowDims
    some [⟨idx, inputDims⟩, ⟨idx, windowDims⟩, ⟨idx, outputDims⟩]
  else
    none

/-- Modelled from the spec: return the supplied permutation map when the
optional attribute is present and otherwise the identity of the given rank
(`extractOrIdentityMap` in the repository, outside the sampled source). -/
def extractOrIdentityMap (m : Option AffineMap) (rank : Nat) : AffineMap :=
  match m with
  | some p => p
  | none => identityMap rank

/-- A copy operation: input and output operands recorded by rank, plus the
optional input/output permutation attributes. -/
structure CopyOp where
  inputRank : Nat
  outputRank : Nat
  inputPermutation : Option AffineMap
  outputPermutation : Option AffineMap
deriving DecidableEq, Repr

/-- From the source (`CopyOp::iterator_types`): all-parallel, one iterator
per dimension of the input operand. -/
def CopyOp.iterator_types (op : CopyOp) : List IteratorKind :=
  List.replicate op.inputRank .parallel

/-- From the source (`CopyOp::indexing_maps`): the input map then the
output map, each the supplied permutation or the identity of that side's
rank. -/
def CopyOp.indexing_maps (op : CopyOp) : List AffineMap :=
  [extractOrIdentityMap op.inputPermutation op.inputRank,
   extractOrIdentityMap op.outputPermutation op.outputRank]

/-- A shape descriptor: per-dimension extents, each static or dynamic. -/
structure ShapeDescriptor where
  extents : List (Bool × Int)
deriving DecidableEq, Repr

/-- The rank of a shape descriptor. -/
def ShapeDescriptor.rank (s : ShapeDescriptor) : Nat :=
  s.extents.length

/-- A fill operation: a shaped output operand and a scalar fill value. The
scalar is not a shaped view, so only the output participates in the
view-operand list (`inputs()` is empty, `outputs()` is the first operand). -/
structure FillOp where
  output : ShapeDescriptor
deriving DecidableEq, Repr

/-- From the source (`FillOp::iterator_types`): all-parallel, one iterator
per dimension of the output operand. -/
def FillOp.iterator_types (op : FillOp) : List IteratorKind :=
  List.replicate op.output.rank .parallel

/-- Modelled from the spec: parallel-loop count of a fill operation
(structured-op interface, outside the sampled source). -/
def FillOp.getNumParallelLoops (op : FillOp) : Nat :=
  op.iterator_types.count .parallel

/-- From the source (`FillOp::indexing_maps`): a single identity map on the
output (`extractOrIdentityMap(llvm::None, getNumParallelLoops(), ...)`);
the scalar fill value receives no map. -/
def FillOp.indexing_maps (op : FillOp) : List AffineMap :=
  [extractOrIdentityMap none op.getNumParallelLoops]

/-- Operand roles in an operation descriptor. -/
inductive Role where
  | input
  | output
deriving DecidableEq, Repr

/-- The aggregate operation descriptor consumed by the verifier: shaped
view operands with roles, one indexing map per view operand, the iterator
classification, and the optional library-call name. -/
structure OpDescriptor where
  operands : List (ShapeDescriptor × Role)
  indexing_maps : List AffineMap
  iterators : List IteratorKind
  library_call : Option String
deriving DecidableEq, Repr

/-- Verification-time error taxonomy. -/
inductive VerificationError where
  | OperandMapCountMismatch
  | IteratorRankMismatch
  | OperandRankMismatch
  | NoWindowDimension
  | NoOutput
deriving DecidableEq, Repr

/-- Modelled from the spec: the structural verifier, checks in order with
first failure winning: map/operand count, per-map domain rank against the
iterator count, per-map result arity against the operand rank, window
count positivity for window-based variants, and output presence. -/
def verify (windowed : Bool) (d : OpDescriptor) :
    Except VerificationError Unit :=
  if d.indexing_maps.length ≠ d.operands.length then
    .error .OperandMapCountMismatch
  else if d.indexing_maps.any fun m => m.numDims ≠ d.iterators.length then
    .error .IteratorRankMismatch
  else if (d.indexing_maps.zip d.operands).any
      fun p => p.1.results.length ≠ p.2.1.rank then
    .error .OperandRankMismatch
  else if windowed && d.iterators.count .window == 0 then
    .error .NoWindowDimension
  else if d.operands.all fun o => o.2 ≠ .output then
    .error .NoOutput
  else
    .ok ()

/-- Modelled from the spec: verification check 4 for a convolution, whose
window count is the output rank minus the batch and input-feature
dimension counts; a count of zero (output rank at most 2) is the fatal
`NoWindowDimension` error. -/
def ConvOp.verifyWindowDimension (op : ConvOp) :
    Except VerificationError Unit :=
  if op.getNumBatchDimensions + op.getNumInputFeatureDimensions <
      op.outputRank then
    .ok ()
  else
    .error .NoWindowDimension

/-- The generic / indexed-generic operation base: explicit indexing maps,
iterator classification, and optional documentation and library-call
attributes. -/
structure GenericOpBase where
  numInputs : Nat
  numOutputs : Nat
  indexing_maps : List AffineMap
  iterator_types : List IteratorKind
  doc : Option String
  library_call : Option String
deriving DecidableEq, Repr

/-- From the source (`GenericOpBase::getLibraryCallName`): the stored
`library_call` string when present, otherwise the fixed sentinel. -/
def GenericOpBase.getLibraryCallName (op : GenericOpBase) : String :=
  match op.library_call with
  | some s => s
  | none => "op_has_no_registered_library_name"

/-! Helper lemmas. -/

/-- Reading every position of a list back by index reproduces the list. -/
theorem range_length_map_getD {α : Type} (l : List α) (d : α) :
    (List.range l.length).map (fun i => l.getD i d) = l := by
  induction l with
  | nil => simp
  | cons a t ih =>
    rw [List.length_cons, List.range_succ_eq_map, List.map_cons, List.map_map]
    have hf : ((fun i => (a :: t).getD i d) ∘ Nat.succ) =
        fun i => t.getD i d := by
      funext i
      simp [List.getD_cons_succ]
    rw [List.getD_cons_zero, hf, ih]

/-- The view-operand descriptor a fill operation contributes to
verification: its only shaped view operand is the output (the scalar fill
value is not a view), with its single indexing map and all-parallel
iterators. -/
def FillOp.descriptor (f : FillOp) : OpDescriptor :=
  { operands := [(f.output, Role.output)],
    indexing_maps := f.indexing_maps,
    iterators := f.iterator_types,
    library_call := none }

/-- Counting window iterators in a parallel/reduction/window concatenation
yields the window block's length. -/
theorem count_window_iters (nPar nRed nWin : Nat) :
    (List.replicate nPar IteratorKind.parallel ++
     List.replicate nRed IteratorKind.reduction ++
     List.replicate nWin IteratorKind.window).count .window = nWin := by
  simp [List.count_append, List.count_replicate]

/-- A single-input pooling operation has as many parallel loops and as many
window loops as its output has dimensions. -/
theorem pooling_loop_counts (op : PoolingOp) :
    op.getNumParallelLoops = op.outputRank ∧
    op.getNumWindowLoops = op.outputRank := by
  constructor <;>
    simp [PoolingOp.getNumParallelLoops, PoolingOp.getNumWindowLoops,
      PoolingOp.iterator_types, List.count_append, List.count_replicate]

/-! Claim theorems. -/

/-- C7: for every windowed operation and window dimension `i`, an absent
`strides` attribute yields stride 1, an absent `dilations` attribute yields
dilation 1, and an absent `padding` attribute yields low and high padding
0. -/
theorem absent_attributes_default (a : PoolingAttrs) (i : Nat) :
    (a.strides = none → a.getStride i = 1) ∧
    (a.dilations = none → a.getDilation i = 1) ∧
    (a.padding = none → a.getLowPad i = 0 ∧ a.getHighPad i = 0) := by
  refine ⟨fun h => ?_, fun h => ?_, fun h => ?_⟩ <;>
    simp [PoolingAttrs.getStride, PoolingAttrs.getDilation,
      PoolingAttrs.getLowPad, PoolingAttrs.getHighPad, h]

/-- Witness for C7 at the fully-absent attribute record and dimension 0. -/
theorem absent_attributes_default_witness :
    PoolingAttrs.getStride ⟨none, none, none⟩ 0 = 1 ∧
    PoolingAttrs.getDilation ⟨none, none, none⟩ 0 = 1 ∧
    PoolingAttrs.getLowPad ⟨none, none, none⟩ 0 = 0 ∧
    PoolingAttrs.getHighPad ⟨none, none, none⟩ 0 = 0 := by
  have h := absent_attributes_default ⟨none, none, none⟩ 0
  exact ⟨h.1 rfl, h.2.1 rfl, (h.2.2 rfl).1, (h.2.2 rfl).2⟩

/-- C8: for every copy whose input and output ranks agree, the iterator
classification is all-parallel of that rank, and each side's indexing map
is the identity of that rank when no permutation attribute is given and
otherwise the supplied permutation map. -/
theorem copy_identity_or_permutation (op : CopyOp)
    (h : op.inputRank = op.outputRank) :
    op.iterator_types = List.replicate op.inputRank IteratorKind.parallel ∧
    op.indexing_maps.length = 2 ∧
    (op.inputPermutation = none →
      op.indexing_maps.getD 0 ⟨0, []⟩ = identityMap op.inputRank) ∧
    (∀ P, op.inputPermutation = some P →
      op.indexing_maps.getD 0 ⟨0, []⟩ = P) ∧
    (op.outputPermutation = none →
      op.indexing_maps.getD 1 ⟨0, []⟩ = identityMap op.outputRank) ∧
    (∀ P, op.outputPermutation = some P →
      op.indexing_maps.getD 1 ⟨0, []⟩ = P) := by
  refine ⟨rfl, rfl, fun hi => ?_, fun P hi => ?_, fun ho => ?_,
    fun P ho => ?_⟩
  · simp [CopyOp.indexing_maps, extractOrIdentityMap, hi]
  · simp [CopyOp.indexing_maps, extractOrIdentityMap, hi]
  · simp [CopyOp.indexing_maps, extractOrIdentityMap, ho]
  · simp [CopyOp.indexing_maps, extractOrIdentityMap, ho]

/-- Witness for C8 at a rank-2 copy with a swapped input permutation and no
output permutation. -/
theorem copy_identity_or_permutation_witness :
    (CopyOp.indexing_maps
        ⟨2, 2, some ⟨2, [.dim 1, .dim 0]⟩, none⟩).getD 0 ⟨0, []⟩ =
      (⟨2, [.dim 1, .dim 0]⟩ : AffineMap) ∧
    (CopyOp.indexing_maps
        ⟨2, 2, some ⟨2, [.dim 1, .dim 0]⟩, none⟩).getD 1 ⟨0, []⟩ =
      identityMap 2 := by
  have h := copy_identity_or_permutation
    ⟨2, 2, some ⟨2, [.dim 1, .dim 0]⟩, none⟩ rfl
  exact ⟨h.2.2.2.1 ⟨2, [.dim 1, .dim 0]⟩ rfl, h.2.2.2.2.1 rfl⟩

/-- C9: composing the rank-`r` identity map with any permutation map over
`[0, r)` yields that permutation map. -/
theorem compose_identity_eq (r : Nat) (P : AffineMap)
    (hd : P.numDims = r) (hp : isPermutationMap P = true) :
    compose (identityMap r) P = Except.ok P := by
  have h1 := ((Bool.and_eq_true _ _).mp hp).1
  simp only [beq_iff_eq] at h1
  have hlen : P.results.length = r := by omega
  have hc : (identityMap r).numDims = P.results.length := by
    simp [identityMap, hlen]
  unfold compose
  rw [if_pos hc]
  unfold identityMap
  simp only [List.map_map]
  have hmap : (List.range r).map
      (AffineExpr.substDims (fun i => P.results.getD i (.const 0)) ∘
        AffineExpr.dim) =
      (List.range r).map (fun i => P.results.getD i (.const 0)) := rfl
  rw [hmap, ← hlen, range_length_map_getD]

/-- Witness for C9 at rank 2 and the swap permutation. -/
theorem compose_identity_eq_witness :
    compose (identityMap 2) ⟨2, [.dim 1, .dim 0]⟩ =
      Except.ok (⟨2, [.dim 1, .dim 0]⟩ : AffineMap) :=
  compose_identity_eq 2 ⟨2, [.dim 1, .dim 0]⟩ rfl (by decide)

/-- C1: every entry of the derived input index for windowed operations
evaluates to `output_coord[i] * stride[i] + window_coord[i] * dilation[i]
- low_pad[i]`; in particular, a convolution with strides `[2,2]`,
dilations `[1,1]` and zero padding (output rank 4, so two spatial
dimensions `x0 = d1, x1 = d2` and window dimensions `z0 = d5, z1 = d6`)
derives the input spatial index `(2*x0 + z0, 2*x1 + z1)`. -/
theorem weighted_window_index_correct :
    (∀ (a : PoolingAttrs) (xs zs : List AffineExpr) (v : Nat → Int)
        (i : Nat), i < xs.length →
      ((weightedPoolingInputIndex a xs zs).getD i (.const 0)).eval v =
        (xs.getD i (.const 0)).eval v * a.getStride i +
        (zs.getD i (.const 0)).eval v * a.getDilation i -
        a.getLowPad i) ∧
    (∀ op : ConvOp, op.outputRank = 4 →
      op.attrs = ⟨some [2, 2], some [1, 1], some [(0, 0), (0, 0)]⟩ →
      ∀ v : Nat → Int,
        op.indexing_maps.isSome ∧
        (((op.indexing_maps.getD []).getD 1 ⟨0, []⟩).results.getD 1
          (.const 0)).eval v = 2 * v 1 + v 5 ∧
        (((op.indexing_maps.getD []).getD 1 ⟨0, []⟩).results.getD 2
          (.const 0)).eval v = 2 * v 2 + v 6) := by
  constructor
  · intro a xs zs v i hi
    rw [weightedPoolingInputIndex, List.getD_eq_getElem?_getD,
      List.getElem?_map, List.getElem?_range hi]
    simp only [Option.map_some', Option.getD_some, AffineExpr.eval]
    ring
  · intro op h4 hattrs v
    obtain ⟨fr, ir, orank, attrs⟩ := op
    replace h4 : orank = 4 := h4
    replace hattrs : attrs =
      ⟨some [2, 2], some [1, 1], some [(0, 0), (0, 0)]⟩ := hattrs
    subst h4
    subst hattrs
    refine ⟨rfl, ?_, ?_⟩ <;>
    · simp only [ConvOp.indexing_maps, ConvOp.getNumWindowLoops,
        ConvOp.iterator_types, ConvOp.getNumBatchDimensions,
        ConvOp.getNumInputFeatureDimensions,
        ConvOp.getNumOutputFeatureDimensions, makeAffineDimExprs,
        weightedPoolingInputIndex, PoolingAttrs.getStride,
        PoolingAttrs.getDilation, PoolingAttrs.getLowPad]
      norm_num [AffineExpr.eval, List.getD, List.count_replicate,
        List.count_cons, List.count_nil]
      rw [if_neg (by decide : ¬ (IteratorKind.parallel = IteratorKind.window)),
        if_neg (by decide : ¬ (IteratorKind.reduction = IteratorKind.window))]
      norm_num
      ring

/-- Witness for C1 at the rank-4 strides-[2,2] convolution, stride index
0, and a concrete coordinate assignment. -/
theorem weighted_window_index_correct_witness :
    ((weightedPoolingInputIndex ⟨some [2, 2], some [1, 1], none⟩
        [.dim 0] [.dim 1]).getD 0 (.const 0)).eval (fun j => (j : Int)) =
      (0 : Int) * 2 + 1 * 1 - 0 ∧
    AffineExpr.eval (fun j => (j : Int))
      ((((ConvOp.indexing_maps
          ⟨4, 4, 4, ⟨some [2, 2], some [1, 1],
            some [(0, 0), (0, 0)]⟩⟩).getD []).getD 1
          ⟨0, []⟩).results.getD 1 (.const 0)) =
      2 * 1 + 5 := by
  constructor
  · exact (weighted_window_index_correct.1
      ⟨some [2, 2], some [1, 1], none⟩ [.dim 0] [.dim 1]
      (fun j => (j : Int)) 0 (by decide))
  · exact ((weighted_window_index_correct.2
      ⟨4, 4, 4, ⟨some [2, 2], some [1, 1], some [(0, 0), (0, 0)]⟩⟩ rfl rfl
      (fun j => (j : Int))).2.1)

/-- C2: a convolution whose output rank is at most 2 (no room for a window
dimension after the batch and input-feature dimensions) fails verification
with `NoWindowDimension`, and its `iterator_types` / `indexing_maps` stop
at the assertion instead of computing an out-of-bounds window count; under
the precondition that the output rank exceeds 2, the assertion branches in
`iterator_types` and `indexing_maps` are unreachable and both succeed. -/
theorem conv_no_window_dimension (op : ConvOp) :
    (op.outputRank ≤ 2 →
      op.verifyWindowDimension =
        Except.error VerificationError.NoWindowDimension ∧
      op.iterator_types = none ∧ op.indexing_maps = none) ∧
    (2 < op.outputRank →
      op.verifyWindowDimension = Except.ok () ∧
      op.iterator_types.isSome ∧ op.indexing_maps.isSome) := by
  constructor
  · intro h
    have hc : ¬ (op.getNumBatchDimensions + op.getNumInputFeatureDimensions <
        op.outputRank) := by
      simp only [ConvOp.getNumBatchDimensions,
        ConvOp.getNumInputFeatureDimensions]
      omega
    have hiter : op.iterator_types = none := by
      simp only [ConvOp.iterator_types]
      rw [if_neg hc]
    refine ⟨?_, hiter, ?_⟩
    · unfold ConvOp.verifyWindowDimension
      rw [if_neg hc]
    · simp [ConvOp.indexing_maps, ConvOp.getNumWindowLoops, hiter]
  · intro h
    have hc : op.getNumBatchDimensions + op.getNumInputFeatureDimensions <
        op.outputRank := by
      simp only [ConvOp.getNumBatchDimensions,
        ConvOp.getNumInputFeatureDimensions]
      omega
    have hiter : op.iterator_types =
        some (List.replicate op.outputRank .parallel ++
          List.replicate 1 .reduction ++
          List.replicate (op.outputRank - 1 - 1) .window) := by
      simp only [ConvOp.iterator_types, ConvOp.getNumBatchDimensions,
        ConvOp.getNumInputFeatureDimensions]
      rw [if_pos (by omega : 1 + 1 < op.outputRank)]
    refine ⟨?_, by rw [hiter]; rfl, ?_⟩
    · unfold ConvOp.verifyWindowDimension
      rw [if_pos hc]
    · have hwin : op.getNumWindowLoops = some (op.outputRank - 1 - 1) := by
        rw [ConvOp.getNumWindowLoops, hiter]
        simp only [Option.map_some']
        rw [count_window_iters]
      simp only [ConvOp.indexing_maps, hwin, Option.bind_eq_bind,
        Option.some_bind]
      rw [if_pos (by omega)]
      rfl

/-- Witness for C2 at output ranks 2 and 3. -/
theorem conv_no_window_dimension_witness :
    ConvOp.verifyWindowDimension ⟨3, 3, 2, ⟨none, none, none⟩⟩ =
      Except.error VerificationError.NoWindowDimension ∧
    ConvOp.iterator_types ⟨3, 3, 2, ⟨none, none, none⟩⟩ = none ∧
    ConvOp.verifyWindowDimension ⟨3, 3, 3, ⟨none, none, none⟩⟩ =
      Except.ok () ∧
    (ConvOp.indexing_maps ⟨3, 3, 3, ⟨none, none, none⟩⟩).isSome := by
  have h2 := conv_no_window_dimension ⟨3, 3, 2, ⟨none, none, none⟩⟩
  have h3 := conv_no_window_dimension ⟨3, 3, 3, ⟨none, none, none⟩⟩
  exact ⟨(h2.1 (by decide)).1, (h2.1 (by decide)).2.1,
    (h3.2 (by decide)).1, (h3.2 (by decide)).2.2⟩

/-- C3: the verifier rejects, on every construction path, any operation
descriptor whose indexing-map count differs from its view-operand count,
with `OperandMapCountMismatch`; the fill path in particular carries a
single identity map on the output and its view-operand list (just the
output; the scalar fill value carries no map) matches that count. -/
theorem verify_operand_map_count (w : Bool) (d : OpDescriptor)
    (h : d.indexing_maps.length ≠ d.operands.length) :
    verify w d = Except.error VerificationError.OperandMapCountMismatch ∧
    ∀ f : FillOp, f.indexing_maps = [identityMap f.output.rank] ∧
      f.descriptor.indexing_maps.length = f.descriptor.operands.length := by
  constructor
  · unfold verify
    rw [if_pos h]
  · intro f
    refine ⟨?_, rfl⟩
    simp [FillOp.indexing_maps, extractOrIdentityMap,
      FillOp.getNumParallelLoops, FillOp.iterator_types,
      List.count_replicate]

/-- Witness for C3 at a descriptor with one operand and no maps. -/
theorem verify_operand_map_count_witness :
    verify false ⟨[(⟨[(false, 4)]⟩, Role.output)], [], [], none⟩ =
      Except.error VerificationError.OperandMapCountMismatch ∧
    FillOp.indexing_maps ⟨⟨[(false, 4), (false, 4)]⟩⟩ =
      [identityMap 2] := by
  have h := verify_operand_map_count false
    ⟨[(⟨[(false, 4)]⟩, Role.output)], [], [], none⟩ (by decide)
  exact ⟨h.1, (h.2 ⟨⟨[(false, 4), (false, 4)]⟩⟩).1⟩

/-- C4: a convolution's iterator classification is the concatenation of
parallel iterators for the batch, spatial, and output-feature dimensions,
then reduction iterators for the input-feature count, then window
iterators; with the batch and feature counts fixed to 1 this is parallel
times the output rank, one reduction, and window times output rank minus
2. -/
theorem conv_iterator_types_layout (op : ConvOp) (h : 2 < op.outputRank) :
    op.iterator_types = some (
      List.replicate (op.getNumBatchDimensions + op.getNumSpatialDimensions +
          op.getNumOutputFeatureDimensions) IteratorKind.parallel ++
      List.replicate op.getNumInputFeatureDimensions .reduction ++
      List.replicate (op.outputRank - op.getNumBatchDimensions -
          op.getNumInputFeatureDimensions) .window) ∧
    op.iterator_types = some (
      List.replicate op.outputRank IteratorKind.parallel ++
      List.replicate 1 .reduction ++
      List.replicate (op.outputRank - 2) .window) := by
  have h1 : op.getNumBatchDimensions + op.getNumSpatialDimensions +
      op.getNumOutputFeatureDimensions = op.outputRank := by
    simp only [ConvOp.getNumBatchDimensions, ConvOp.getNumSpatialDimensions,
      ConvOp.getNumOutputFeatureDimensions]
    omega
  have h2 : op.outputRank - op.getNumBatchDimensions -
      op.getNumInputFeatureDimensions = op.outputRank - 2 := by
    simp only [ConvOp.getNumBatchDimensions,
      ConvOp.getNumInputFeatureDimensions]
    omega
  have h3 : op.getNumInputFeatureDimensions = 1 := rfl
  rw [h1, h2, h3]
  have hgoal : op.iterator_types = some (
      List.replicate op.outputRank IteratorKind.parallel ++
      List.replicate 1 .reduction ++
      List.replicate (op.outputRank - 2) .window) := by
    simp only [ConvOp.iterator_types, ConvOp.getNumBatchDimensions,
      ConvOp.getNumInputFeatureDimensions]
    rw [if_pos (by omega),
      (by omega : op.outputRank - 1 - 1 = op.outputRank - 2)]
  exact ⟨hgoal, hgoal⟩

/-- Witness for C4 at output rank 4. -/
theorem conv_iterator_types_layout_witness :
    ConvOp.iterator_types ⟨4, 4, 4, ⟨none, none, none⟩⟩ = some
      [IteratorKind.parallel, .parallel, .parallel, .parallel,
       .reduction, .window, .window] := by
  have h := conv_iterator_types_layout ⟨4, 4, 4, ⟨none, none, none⟩⟩
    (by decide)
  rw [h.2]
  rfl

/-- C5: a convolution's indexing maps are exactly three, in operand order
(filter, input, output), over iteration-space dimensions allocated in the
fixed order batch (dimension 0), spatial (1 to rank-2), output feature
(rank-1), input-feature reduction (rank), window (rank+1 onward): the
filter map selects (window, input-feature, output-feature), the input map
is (batch, weighted window expressions, input-feature), the output map is
(batch, spatial, output-feature); all three share the domain rank
2*rank - 1, the iterator classification length. -/
theorem conv_indexing_maps_layout (op : ConvOp) (h : 2 < op.outputRank) :
    op.indexing_maps = some [
      ⟨2 * op.outputRank - 1,
        ((List.range (op.outputRank - 2)).map fun i =>
          AffineExpr.dim (op.outputRank + 1 + i)) ++
        [AffineExpr.dim op.outputRank] ++
        [AffineExpr.dim (op.outputRank - 1)]⟩,
      ⟨2 * op.outputRank - 1,
        [AffineExpr.dim 0] ++
        weightedPoolingInputIndex op.attrs
          ((List.range (op.outputRank - 2)).map fun i =>
            AffineExpr.dim (1 + i))
          ((List.range (op.outputRank - 2)).map fun i =>
            AffineExpr.dim (op.outputRank + 1 + i)) ++
        [AffineExpr.dim op.outputRank]⟩,
      ⟨2 * op.outputRank - 1,
        [AffineExpr.dim 0] ++
        ((List.range (op.outputRank - 2)).map fun i =>
          AffineExpr.dim (1 + i)) ++
        [AffineExpr.dim (op.outputRank - 1)]⟩] ∧
    ∀ its, op.iterator_types = some its →
      ∀ m ∈ op.indexing_maps.getD [], m.numDims = its.length := by
  obtain ⟨n, hn⟩ : ∃ n, op.outputRank = n + 3 := ⟨op.outputRank - 3, by omega⟩
  have hiter : op.iterator_types =
      some (List.replicate op.outputRank .parallel ++
        List.replicate 1 .reduction ++
        List.replicate (op.outputRank - 1 - 1) .window) := by
    simp only [ConvOp.iterator_types, ConvOp.getNumBatchDimensions,
      ConvOp.getNumInputFeatureDimensions]
    rw [if_pos (by omega : 1 + 1 < op.outputRank)]
  have hwin : op.getNumWindowLoops = some (n + 1) := by
    rw [ConvOp.getNumWindowLoops, hiter]
    simp only [Option.map_some']
    rw [count_window_iters, hn]
    simp only [Option.some.injEq]
    omega
  have hmaps : op.indexing_maps = some [
      ⟨2 * n + 5,
        ((List.range (n + 1)).map fun i => AffineExpr.dim (n + 4 + i)) ++
        [AffineExpr.dim (n + 3)] ++ [AffineExpr.dim (n + 2)]⟩,
      ⟨2 * n + 5,
        [AffineExpr.dim 0] ++
        weightedPoolingInputIndex op.attrs
          ((List.range (n + 1)).map fun i => AffineExpr.dim (1 + i))
          ((List.range (n + 1)).map fun i => AffineExpr.dim (n + 4 + i)) ++
        [AffineExpr.dim (n + 3)]⟩,
      ⟨2 * n + 5,
        [AffineExpr.dim 0] ++
        ((List.range (n + 1)).map fun i => AffineExpr.dim (1 + i)) ++
        [AffineExpr.dim (n + 2)]⟩] := by
    simp only [ConvOp.indexing_maps, hwin, Option.bind_eq_bind,
      Option.some_bind]
    rw [if_pos (by omega : 0 < n + 1)]
    simp only [ConvOp.getNumBatchDimensions,
      ConvOp.getNumInputFeatureDimensions,
      ConvOp.getNumOutputFeatureDimensions, makeAffineDimExprs,
      Nat.zero_add]
    have hr1 : ∀ (f : Nat → AffineExpr), List.map f (List.range 1) = [f 0] :=
      fun f => rfl
    simp only [hr1, Nat.add_zero]
    rw [(by omega : 1 + (n + 1) = n + 2), (by omega : n + 2 + 1 = n + 3),
      (by omega : n + 3 + 1 = n + 4), (by omega : n + 4 + (n + 1) = 2 * n + 5)]
  constructor
  · rw [hmaps, hn]
    rw [(by omega : n + 3 - 2 = n + 1), (by omega : 2 * (n + 3) - 1 = 2 * n + 5),
      (by omega : n + 3 + 1 = n + 4), (by omega : n + 3 - 1 = n + 2)]
  · intro its hits m hm
    rw [hiter] at hits
    obtain rfl : its = List.replicate op.outputRank .parallel ++
        List.replicate 1 .reduction ++
        List.replicate (op.outputRank - 1 - 1) .window :=
      (Option.some.injEq _ _).mp hits.symm
    rw [hmaps] at hm
    simp only [Option.getD_some] at hm
    have hlen : (List.replicate op.outputRank IteratorKind.parallel ++
        List.replicate 1 IteratorKind.reduction ++
        List.replicate (op.outputRank - 1 - 1) IteratorKind.window).length =
        2 * n + 5 := by
      simp [List.length_append, List.length_replicate]
      omega
    rw [hlen]
    simp only [List.mem_cons, List.mem_singleton] at hm
    rcases hm with rfl | rfl | rfl | hm
    · rfl
    · rfl
    · rfl
    · simp at hm

/-- Witness for C5 at output rank 3. -/
theorem conv_indexing_maps_layout_witness :
    ConvOp.indexing_maps ⟨3, 3, 3, ⟨none, none, none⟩⟩ = some [
      ⟨5, [AffineExpr.dim 4, .dim 3, .dim 2]⟩,
      ⟨5, [AffineExpr.dim 0,
           .add (.add (.mulc (.dim 1) 1) (.mulc (.dim 4) 1)) (.const 0),
           .dim 3]⟩,
      ⟨5, [AffineExpr.dim 0, .dim 1, .dim 2]⟩] := by
  have h := conv_indexing_maps_layout ⟨3, 3, 3, ⟨none, none, none⟩⟩
    (by decide)
  rw [h.1]
  rfl

/-- C6: a single-input pooling operation's iterator classification is
parallel iterators for every output dimension followed by as many window
iterators, and its indexing maps are, in order: the input map applying the
weighted window formula with the output coordinates as the windowed
output, the window-dimension selector, and the output-dimension selector,
all over a domain of twice the output rank. -/
theorem pooling_iterator_and_maps (op : PoolingOp)
    (h : 0 < op.outputRank) :
    op.iterator_types =
      List.replicate op.outputRank IteratorKind.parallel ++
      List.replicate op.outputRank .window ∧
    op.indexing_maps = some [
      ⟨2 * op.outputRank,
        weightedPoolingInputIndex op.attrs
          ((List.range op.outputRank).map AffineExpr.dim)
          ((List.range op.outputRank).map fun i =>
            AffineExpr.dim (op.outputRank + i))⟩,
      ⟨2 * op.outputRank, (List.range op.outputRank).map fun i =>
        AffineExpr.dim (op.outputRank + i)⟩,
      ⟨2 * op.outputRank, (List.range op.outputRank).map
        AffineExpr.dim⟩] := by
  obtain ⟨hpar, hwin⟩ := pooling_loop_counts op
  refine ⟨rfl, ?_⟩
  simp only [PoolingOp.indexing_maps, hpar, hwin]
  rw [if_pos h]
  simp [makeAffineDimExprs, two_mul, Nat.zero_add]

/-- Witness for C6 at a rank-1 pooling operation. -/
theorem pooling_iterator_and_maps_witness :
    PoolingOp.iterator_types ⟨1, 1, 1, ⟨none, none, none⟩⟩ =
      [IteratorKind.parallel, .window] ∧
    PoolingOp.indexing_maps ⟨1, 1, 1, ⟨none, none, none⟩⟩ = some [
      ⟨2, [.add (.add (.mulc (.dim 0) 1) (.mulc (.dim 1) 1)) (.const 0)]⟩,
      ⟨2, [.dim 1]⟩,
      ⟨2, [.dim 0]⟩] := by
  have h := pooling_iterator_and_maps ⟨1, 1, 1, ⟨none, none, none⟩⟩
    (by decide)
  refine ⟨h.1, ?_⟩
  rw [h.2]
  rfl

/-- C10: `getLibraryCallName` is total on generic and indexed-generic
operations: it returns the stored `library_call` string when present and
the fixed sentinel string otherwise. -/
theorem library_call_name_total (op : GenericOpBase) :
    (∀ s, op.library_call = some s → op.getLibraryCallName = s) ∧
    (op.library_call = none →
      op.getLibraryCallName = "op_has_no_registered_library_name") := by
  constructor
  · intro s hs
    simp [GenericOpBase.getLibraryCallName, hs]
  · intro h
    simp [GenericOpBase.getLibraryCallName, h]

/-- Witness for C10 at a generic op with and without a library call. -/
theorem library_call_name_total_witness :
    GenericOpBase.getLibraryCallName
      ⟨1, 1, [], [], none, some "linalg_matmul"⟩ = "linalg_matmul" ∧
    GenericOpBase.getLibraryCallName
      ⟨1, 1, [], [], none, none⟩ = "op_has_no_registered_library_name" :=
  ⟨(library_call_name_total ⟨1, 1, [], [], none, some "linalg_matmul"⟩).1
      "linalg_matmul" rfl,
   (library_call_name_total ⟨1, 1, [], [], none, none⟩).2 rfl⟩

end Linalg
